import Mathlib

/-!
Shallow embedding of the geospatial attribution and population-weighted
aggregation engine of `analysis/NECIR_CSO_map.py`, together with theorems
settling the frozen claims about it.

Modelling conventions:
* Python floats are modelled as rationals; a missing value (NaN) is
  modelled as `none` in `Option ℚ`.  A division result that may be
  non-finite is modelled by `DivResult` (finite value, NaN, or a signed
  infinity), matching IEEE semantics of numpy float division.
* `np.sum` applied to a pandas Series skips NaN entries (pandas
  `skipna=True` default); this is `nansum` below.
* Randomness (`np.random.randint`) is modelled by an oracle function
  passed as an argument; only the fact that each drawn index lies in
  `[0, n)` matters, which is captured with `% n`.
* Geometry (CRS casts, polygon containment, point-to-polygon distance)
  is abstracted by functions carried inside the region records or passed
  as oracles; the pipeline logic over them is translated line by line.
-/

namespace NECIRCSO

/-- A float-or-NaN cell, as held in a pandas column. -/
abbrev RVal := Option ℚ

/-- Pandas `skipna` sum: `np.sum` of a Series ignores NaN entries. -/
def nansum (l : List RVal) : ℚ :=
  (l.filterMap id).sum

/-- IEEE float product with NaN propagation. -/
def nanProd (a b : RVal) : RVal :=
  match a, b with
  | some x, some y => some (x * y)
  | _, _ => none

/-- Result of an IEEE float division: finite, NaN, or signed infinity. -/
inductive DivResult where
  | val (q : ℚ)
  | nan
  | posinf
  | neginf
deriving DecidableEq, Repr

/-- IEEE float division of two finite values: `0 / 0` is NaN and
`x / 0` for nonzero `x` is a signed infinity (numpy emits a runtime
warning, not an exception, in both cases). -/
def fdiv (a b : ℚ) : DivResult :=
  if b = 0 then
    if a = 0 then DivResult.nan
    else if 0 < a then DivResult.posinf
    else DivResult.neginf
  else DivResult.val (a / b)

/-- Embedding of `pop_weighted_average` from `NECIR_CSO_map.py` for one
column: `np.sum(w * x[col].values) / np.sum(w)`.  Both sums are pandas
skipna sums; the elementwise product propagates NaN. -/
def pop_weighted_average (w : List RVal) (col : List RVal) : DivResult :=
  fdiv (nansum (List.zipWith nanProd w col)) (nansum w)

/-- Embedding of `np.average(xs, weights=ws)`: `none` models the
`ZeroDivisionError` numpy raises when the weights sum to zero. -/
def npWeightedAverage (xs ws : List ℚ) : Option ℚ :=
  if ws.sum = 0 then none
  else some ((List.zipWith (fun a b => a * b) xs ws).sum / ws.sum)

/-- Embedding of `np.mean` on a float array: the empty mean is NaN. -/
def npMean (l : List ℚ) : DivResult :=
  fdiv l.sum l.length

/-- Embedding of the square of `np.std` (population variance, `ddof=0`):
`np.std l = sqrt (npVariance l)`, so the standard deviation is zero
exactly when this variance is zero. -/
def npVariance (l : List ℚ) : DivResult :=
  match npMean l with
  | DivResult.val m => fdiv ((l.map (fun a => (a - m) ^ 2)).sum) l.length
  | _ => DivResult.nan

/-- The joint NaN filter at the top of `weight_mean`:
`nonan_sel = (np.isnan(x) == 0) & (np.isnan(weights) == 0)` applied to
both columns. -/
def wmFilter (x weights : List RVal) : List (ℚ × ℚ) :=
  (List.zipWith (fun a b => (a, b)) x weights).filterMap
    (fun p =>
      match p with
      | (some a, some b) => some (a, b)
      | _ => none)

/-- The indices drawn for one resample:
`sel = np.random.randint(len(x), size=len(x))`, with the random stream
given by the oracle `s`; `% n` records that every drawn index lies in
`[0, n)`. -/
def wmDraw (n : ℕ) (s : ℕ → ℕ → ℕ) (i : ℕ) : List ℕ :=
  (List.range n).map (fun j => s i j % n)

/-- One resampled weighted average:
`avgs[i] = np.average(x[sel], weights=weights[sel])` — the same index
list is applied jointly to the values and the weights. -/
def wmResampleAvg (rows : List (ℚ × ℚ)) (s : ℕ → ℕ → ℕ) (i : ℕ) : Option ℚ :=
  let sel := wmDraw rows.length s i
  npWeightedAverage (sel.map (fun k => (rows.getD k (0, 0)).1))
    (sel.map (fun k => (rows.getD k (0, 0)).2))

/-- Embedding of `weight_mean` from `NECIR_CSO_map.py` (bootstrapped
weighted mean).  After removing rows with NaN in either column, it draws
`N` resamples of size equal to the remaining length and returns the mean
and the variance of the per-resample weighted means (`np.std` is the
square root of the returned variance).  `Except.error` models the
exceptions: `np.random.randint(0, size=0)` raises `ValueError` when the
filtered input is empty and at least one resample is drawn, and
`np.average` raises `ZeroDivisionError` on a zero weight sum. -/
def weight_mean (x weights : List RVal) (s : ℕ → ℕ → ℕ) (N : ℕ) :
    Except String (DivResult × DivResult) :=
  let rows := wmFilter x weights
  if rows.length = 0 ∧ 0 < N then
    Except.error "ValueError: low >= high"
  else
    let avgsOpt := (List.range N).map (wmResampleAvg rows s)
    if avgsOpt.any Option.isNone then
      Except.error "ZeroDivisionError: Weights sum to zero"
    else
      Except.ok (npMean (avgsOpt.filterMap id), npVariance (avgsOpt.filterMap id))

/-!
Buffered (smoothing) attribution mode.
-/

/-- Embedding of `smooth_discharge` from `NECIR_CSO_map.py` for one
discharge column.  The input rows are the CSO rows falling within one
census block group, as pairs of the column value and the row value of
`cso_duplication`; the output is
`np.average(x[col], weights=x['cso_duplication'])` together with
`num_buffered_csos = len(x)`. -/
def smooth_discharge (rows : List (ℚ × ℚ)) : Option ℚ × ℕ :=
  (npWeightedAverage (rows.map Prod.fst) (rows.map Prod.snd), rows.length)

/-- A discharge event (one CSO outfall row) in buffered mode: its
discharge volume and discharge count columns. -/
structure BufEvent where
  vol : ℚ
  cnt : ℚ
deriving DecidableEq, Repr

/-- Whether the radius-`R` buffer disc around an event point intersects
a block-group polygon at distance `d` from the point.  A shapely buffer
of non-positive radius around a point is the empty polygon, which
intersects nothing; for `0 < R` the closed buffer disc intersects the
polygon exactly when the point-to-polygon distance is at most `R`. -/
def bufferIntersects (R d : ℚ) : Bool :=
  if R ≤ 0 then false else decide (d ≤ R)

/-- Indices of candidate block groups whose polygon intersects the
buffer of event `e`; `dist e b` is the point-to-polygon distance oracle
and `nBG` the number of candidate block groups (those retaining EJ
data, as the code filters `utm_bg_df` before the spatial join). -/
def intersectingBGs (R : ℚ) (dist : ℕ → ℕ → ℚ) (nBG : ℕ) (e : ℕ) : List ℕ :=
  (List.range nBG).filter (fun b => bufferIntersects R (dist e b))

/-- `cso_duplication` of event `e`: the number of candidate block groups
its buffer intersects (the `groupby('cso_id')['GEOID'].count()` step). -/
def cso_duplication (R : ℚ) (dist : ℕ → ℕ → ℚ) (nBG : ℕ) (e : ℕ) : ℕ :=
  (intersectingBGs R dist nBG e).length

/-- The event–blockgroup pairs produced by the buffered spatial join
(`utm_bg_df.sjoin(utm_cso_buf_df, predicate='intersects')`), as pairs of
event index and block-group index. -/
def bufferedPairs (R : ℚ) (dist : ℕ → ℕ → ℚ) (events : List BufEvent) (nBG : ℕ) :
    List (ℕ × ℕ) :=
  (List.range events.length).flatMap
    (fun e => (intersectingBGs R dist nBG e).map (fun b => (e, b)))

/-- The smoothed discharge-volume value the buffered pipeline assigns to
block group `b`: `smooth_discharge` applied to the group of joined rows
whose `GEOID` is `b`, i.e. the events whose buffer intersects `b`, each
carrying its volume and its `cso_duplication` as the averaging weight. -/
def smoothedVolume (R : ℚ) (dist : ℕ → ℕ → ℚ) (events : List BufEvent) (nBG : ℕ)
    (b : ℕ) : Option ℚ :=
  let grp := (List.range events.length).filter
    (fun e => bufferIntersects R (dist e b))
  (smooth_discharge (grp.map
    (fun e => ((events.getD e ⟨0, 0⟩).vol, (cso_duplication R dist nBG e : ℚ))))).1

/-!
Exact attribution mode (`sjoin_nearest`).
-/

/-- A point in the metric (EPSG:3310) plane. -/
abbrev Pt := ℚ × ℚ

/-- A candidate region polygon, with its geometry abstracted to a
containment test and a point-to-polygon distance function. -/
structure Region where
  geoid : String
  containsP : Pt → Bool
  distP : Pt → ℚ

/-- The set of candidate regions at minimal distance from `p`: the rows
`sjoin_nearest` matches for the event at `p` (geopandas returns every
equidistant tie). -/
def nearestSet (rs : List Region) (p : Pt) : List Region :=
  rs.filter (fun r => rs.all (fun r2 => r.distP p ≤ r2.distP p))

/-- The merge rows contributed by one event under
`sjoin_nearest(..., how='left')`: its nearest matches, or a single row
with a null `GEOID` when there is no candidate at all. -/
def mergeRows (rs : List Region) (p : Pt) : List (Option String) :=
  match nearestSet rs p with
  | [] => [none]
  | l => l.map (fun r => some r.geoid)

/-- Embedding of the exact-mode branch of
`_assign_cso_data_to_census_blocks_with_geopandas`:
`utm_merge_df = utm_cso_df.sjoin_nearest(utm_bg_df, how='left')` followed
by `data_cso['GEOID'] = utm_merge_df['GEOID'].values`.  The column
write-back raises a pandas length error unless the merge produced
exactly one row per event, which the `if` models. -/
def assignExact (rs : List Region) (events : List Pt) :
    Except String (List (Pt × Option String)) :=
  let merged := events.flatMap (mergeRows rs)
  if merged.length = events.length then
    Except.ok (events.zip merged)
  else
    Except.error "ValueError: Length of values does not match length of index"

/-!
Town and watershed label propagation
(`assign_ej_data_to_geo_bins_with_geopandas`).
-/

/-- Python logging levels used by the script. -/
inductive LogLevel where
  | info
  | warning
deriving DecidableEq, Repr

/-- A municipality or watershed feature, with the containment test of
its polygon against a block-group centroid. -/
structure GeoFeature where
  key : String
  containsP : Pt → Bool

/-- Embedding of the per-blockgroup body of the loop in
`assign_ej_data_to_geo_bins_with_geopandas`: the rows of
`geo_df.sjoin(data_ejs_centroids, predicate='contains')` for this
centroid, in the iteration order of `geo_df`; the label defaults to the
sentinel string and is overwritten with `result_set.iloc[0][geo_key]`
when at least one feature contains the centroid.  Returns the assigned
label and the log records emitted (`logging.info` calls). -/
def lookupGeoLabel (geoType : String) (geoDf : List GeoFeature) (cbgId : String)
    (centroid : Pt) : String × List (LogLevel × String) :=
  let result_set := geoDf.filter (fun g => g.containsP centroid)
  match result_set with
  | [] =>
      ("[UNKNOWN]",
        [(LogLevel.info,
          "No " ++ geoType ++ " found for Census Block Group #" ++ cbgId)])
  | g :: rest =>
      (g.key,
        if rest.length = 0 then []
        else
          [(LogLevel.info,
            "N=" ++ toString (rest.length + 1) ++ " " ++ geoType ++
              "s were found for Census Block Group #" ++ cbgId ++
              "; will pick the first")])

/-!
Aggregation (`_apply_pop_weighted_avg` groupby sums).
-/

/-- Pandas `groupby(key)[col].sum()` over rows carrying an optional
group label: rows with a null label are dropped by pandas groupby, and
each remaining distinct label becomes one output row with the sum of the
column over its group. -/
def groupTotals (rows : List (Option String × ℚ)) : List (String × ℚ) :=
  ((rows.filterMap Prod.fst).dedup).map
    (fun k => (k, ((rows.filter (fun r => r.1 = some k)).map Prod.snd).sum))

/-!
Configuration (`CSOAnalysis.__init__`).
-/

/-- The configuration state relevant to buffered mode that
`CSOAnalysis.__init__` stores. -/
structure CSOAnalysis where
  cbg_smooth_radius : Option ℚ
deriving DecidableEq, Repr

/-- Embedding of `CSOAnalysis.__init__` restricted to the smoothing
radius: the constructor stores `cbg_smooth_radius` unconditionally and
performs no validation of it, so it never raises. -/
def CSOAnalysis_init (cbg_smooth_radius : Option ℚ) : Except String CSOAnalysis :=
  Except.ok ⟨cbg_smooth_radius⟩

/-!
Object-store model for the frame-effect claim: pandas dataframes live in
a store, Python variables hold references, and only `df[col] = ...` /
`df.loc[...] = ...` statements mutate the frame a reference points to.
Every dataframe-producing pandas or geopandas operation (`copy`,
`to_crs`, boolean-mask filtering, `sjoin`, `sjoin_nearest`, `merge`,
`set_index`, `groupby(...).apply`, `buffer`, `set_geometry`) returns a
new frame, modelled as an allocation; their numeric content is
irrelevant to the frame property, so they are oracles.
-/

/-- A dataframe value: a list of named columns. -/
structure DFrame where
  cols : List (String × List RVal)

/-- The store of live dataframes; a reference is an index into it. -/
abbrev Store := List DFrame

/-- Allocate a fresh dataframe, returning the new store and the
reference to the fresh frame. -/
def alloc (st : Store) (f : DFrame) : Store × ℕ :=
  (st ++ [f], st.length)

/-- Dereference. -/
def readF (st : Store) (r : ℕ) : DFrame :=
  st.getD r ⟨[]⟩

/-- In-place mutation of the frame a reference points to. -/
def writeF (st : Store) (r : ℕ) (f : DFrame) : Store :=
  st.set r f

/-- `df[c] = v`, as a pure frame update applied through `writeF`. -/
def setCol (f : DFrame) (c : String) (v : List RVal) : DFrame :=
  ⟨(c, v) :: f.cols.filter (fun p => p.1 ≠ c)⟩

/-- The dataframe-valued operation oracles used by
`_assign_cso_data_to_census_blocks_with_geopandas`. -/
structure CsoGeoOps where
  castFn : DFrame → DFrame
  toCrsFn : DFrame → DFrame
  filterByEjFn : DFrame → DFrame → DFrame
  bufFn : ℚ → DFrame → DFrame
  sjoinFn : DFrame → DFrame → DFrame
  sjoinNearestFn : DFrame → DFrame → DFrame
  dupColFn : DFrame → List RVal
  smoothFn : DFrame → DFrame
  smoothColFn : String → DFrame → DFrame → List RVal
  centroidColsFn : DFrame → List RVal
  geoidColFn : DFrame → List RVal

/-- Store-level embedding of
`_assign_cso_data_to_census_blocks_with_geopandas`, with one `let` per
source statement.  `data_cso = data_cso.copy()` allocates a fresh frame;
every later column assignment targets either that copy (exact mode) or
the frames derived inside the function (buffered mode); the three input
references are never written.  Returns the final store and the reference
to the returned frame. -/
def assign_cso_to_blocks (st : Store) (dataCso dataEjs geoBg : ℕ)
    (useRadius : Option ℚ) (discharge_cols : List String) (ops : CsoGeoOps) :
    Store × ℕ :=
  -- data_cso = data_cso.copy()
  let a1 := alloc st (readF st dataCso)
  let st := a1.1
  let localCso := a1.2
  -- utm_cso_df = cast_df_to_epsg_3310(data_cso, ...)
  let a2 := alloc st (ops.castFn (readF st localCso))
  let st := a2.1
  let utmCso := a2.2
  -- utm_bg_df = geo_blockgroups_df.to_crs(epsg=3310), then
  -- utm_bg_df = utm_bg_df[utm_bg_df['GEOID'].isin(data_ejs['ID'])]
  let a3 := alloc st (ops.filterByEjFn (ops.toCrsFn (readF st geoBg)) (readF st dataEjs))
  let st := a3.1
  let utmBg := a3.2
  match useRadius with
  | some r =>
      -- utm_cso_buf_df = utm_cso_df.set_geometry(utm_cso_df.buffer(...))
      let a4 := alloc st (ops.bufFn r (readF st utmCso))
      let st := a4.1
      let utmCsoBuf := a4.2
      -- utm_merge_df = utm_bg_df.sjoin(utm_cso_buf_df, how='left', predicate='intersects')
      let a5 := alloc st (ops.sjoinFn (readF st utmBg) (readF st utmCsoBuf))
      let st := a5.1
      let utmMerge := a5.2
      -- utm_merge_df['cso_duplication'] = ...
      let st := writeF st utmMerge
        (setCol (readF st utmMerge) "cso_duplication" (ops.dupColFn (readF st utmMerge)))
      -- smoothed_discharge_df = utm_merge_df.groupby('GEOID').apply(smooth_discharge, ...)
      let a6 := alloc st (ops.smoothFn (readF st utmMerge))
      let st := a6.1
      let smoothed := a6.2
      -- for col in discharge_cols: utm_bg_df[col] = smoothed_discharge_df[col].reindex(...)
      let st := discharge_cols.foldl
        (fun acc c =>
          writeF acc utmBg
            (setCol (readF acc utmBg) c
              (ops.smoothColFn c (readF acc smoothed) (readF acc utmBg))))
        st
      -- utm_merge_df[[latitude, longitude]] = utm_merge_df.centroid...
      let st := writeF st utmMerge
        (setCol (readF st utmMerge) "LatitudeLongitude"
          (ops.centroidColsFn (readF st utmMerge)))
      (st, utmMerge)
  | none =>
      -- utm_merge_df = utm_cso_df.sjoin_nearest(utm_bg_df, how='left')
      let a4 := alloc st (ops.sjoinNearestFn (readF st utmCso) (readF st utmBg))
      let st := a4.1
      let utmMerge := a4.2
      -- data_cso['GEOID'] = utm_merge_df['GEOID'].values
      let st := writeF st localCso
        (setCol (readF st localCso) "GEOID" (ops.geoidColFn (readF st utmMerge)))
      (st, localCso)

/-- The dataframe-valued operation oracles used by
`assign_ej_data_to_geo_bins_with_geopandas`. -/
structure EjGeoOps where
  toCrsFn : DFrame → DFrame
  mergeFn : DFrame → DFrame → DFrame
  centroidsFn : DFrame → DFrame
  setIndexFn : DFrame → DFrame
  labelColFn : String → DFrame → DFrame → DFrame → List RVal
  resetIndexFn : DFrame → DFrame

/-- Store-level embedding of
`assign_ej_data_to_geo_bins_with_geopandas`.  The function derives fresh
frames from its four inputs, copies `data_ejs` into `data_ejs_out`, and
the label-writing loop (`data_ejs_out[geo_type] = '[UNKNOWN]'` followed
by the per-row `data_ejs_out.loc[...] = ...` writes, here folded into
one column write per geo family) mutates only that copy. -/
def assign_ej_to_geo_bins (st : Store) (dataEjs geoTowns geoWatersheds geoBg : ℕ)
    (ops : EjGeoOps) : Store × ℕ :=
  -- utm_towns_df / utm_watersheds_df / utm_blockgroups_df = *.to_crs(epsg=3310)
  let a1 := alloc st (ops.toCrsFn (readF st geoTowns))
  let st := a1.1
  let utmTowns := a1.2
  let a2 := alloc st (ops.toCrsFn (readF st geoWatersheds))
  let st := a2.1
  let utmWs := a2.2
  let a3 := alloc st (ops.toCrsFn (readF st geoBg))
  let st := a3.1
  let utmBg := a3.2
  -- data_ejs_cbg_merge = utm_blockgroups_df.merge(data_ejs, ..., how='right')
  let a4 := alloc st (ops.mergeFn (readF st utmBg) (readF st dataEjs))
  let st := a4.1
  let cbgMerge := a4.2
  -- data_ejs_centroids = gpd.GeoDataFrame(geometry=..., index=...)
  let a5 := alloc st (ops.centroidsFn (readF st cbgMerge))
  let st := a5.1
  let centroids := a5.2
  -- data_ejs_out = data_ejs.copy().set_index('ID')
  let a6 := alloc st (ops.setIndexFn (readF st dataEjs))
  let st := a6.1
  let ejsOut := a6.2
  -- loop over ('Town', utm_towns_df), ('Watershed', utm_watersheds_df):
  -- default column then per-row .loc writes, all targeting data_ejs_out
  let st := writeF st ejsOut
    (setCol (readF st ejsOut) "Town"
      (ops.labelColFn "Town" (readF st utmTowns) (readF st centroids) (readF st ejsOut)))
  let st := writeF st ejsOut
    (setCol (readF st ejsOut) "Watershed"
      (ops.labelColFn "Watershed" (readF st utmWs) (readF st centroids) (readF st ejsOut)))
  -- return data_ejs_out.reset_index()
  let a7 := alloc st (ops.resetIndexFn (readF st ejsOut))
  (a7.1, a7.2)

/-!
Spec-side reference expressions, used to compare the embedded code
against the wording of the specification.
-/

/-- The numerator the spec prescribes for a population-weighted average:
the sum of `population * indicator` over exactly the rows where neither
value is NaN. -/
def jointNumerator (w col : List RVal) : ℚ :=
  ((w.zip col).filterMap (fun p =>
    match p with
    | (some x, some y) => some (x * y)
    | _ => none)).sum

/-- The denominator the spec prescribes: the sum of population over
exactly the rows where neither population nor indicator is NaN. -/
def jointDenominator (w col : List RVal) : ℚ :=
  ((w.zip col).filterMap (fun p =>
    match p with
    | (some x, some _) => some x
    | _ => none)).sum

/-- The total of a column over the attributed rows (those carrying a
non-null group label): the right-hand side of the aggregation
additivity claim, each attributed (event, region) pair contributing
weight one times its column value. -/
def attributedTotal (rows : List (Option String × ℚ)) : ℚ :=
  ((rows.filter (fun r => r.1.isSome)).map Prod.snd).sum

/-!
Supporting lemmas.
-/

theorem nansum_nil : nansum [] = 0 := rfl

theorem nansum_cons_none (t : List RVal) : nansum (none :: t) = nansum t := by
  simp [nansum]

theorem nansum_cons_some (q : ℚ) (t : List RVal) :
    nansum (some q :: t) = q + nansum t := by
  simp [nansum]

theorem nansum_nonneg (w : List RVal) (h : ∀ q : ℚ, some q ∈ w → 0 ≤ q) :
    0 ≤ nansum w := by
  induction w with
  | nil => simp [nansum]
  | cons a t ih =>
      have ht : 0 ≤ nansum t := ih (fun q hq => h q (List.mem_cons_of_mem _ hq))
      cases a with
      | none => simpa [nansum_cons_none] using ht
      | some q =>
          have hq : 0 ≤ q := h q (List.mem_cons_self _ _)
          rw [nansum_cons_some]
          exact add_nonneg hq ht

theorem nansum_entries_eq_zero (w : List RVal)
    (h : ∀ q : ℚ, some q ∈ w → 0 ≤ q) (h0 : nansum w = 0) :
    ∀ q : ℚ, some q ∈ w → q = 0 := by
  induction w with
  | nil => intro q hq; cases hq
  | cons a t ih =>
      have hmemt : ∀ q : ℚ, some q ∈ t → 0 ≤ q :=
        fun q hq => h q (List.mem_cons_of_mem _ hq)
      have ht : 0 ≤ nansum t := nansum_nonneg t hmemt
      cases a with
      | none =>
          rw [nansum_cons_none] at h0
          intro q hq
          rcases List.mem_cons.mp hq with hq | hq
          · cases hq
          · exact ih hmemt h0 q hq
      | some p =>
          rw [nansum_cons_some] at h0
          have hp : 0 ≤ p := h p (List.mem_cons_self _ _)
          have hpz : p = 0 := le_antisymm (by linarith) hp
          have htz : nansum t = 0 := by linarith
          intro q hq
          rcases List.mem_cons.mp hq with hq | hq
          · injection hq with h2; rw [h2]; exact hpz
          · exact ih hmemt htz q hq

theorem nansum_zipWith_nanProd (w col : List RVal) :
    nansum (List.zipWith nanProd w col) = jointNumerator w col := by
  induction w generalizing col with
  | nil => cases col <;> rfl
  | cons a t ih =>
      cases col with
      | nil => rfl
      | cons b u =>
          cases a <;> cases b <;>
            simp [nanProd, jointNumerator, nansum, List.filterMap_cons, ih,
              jointNumerator] <;>
            simpa [jointNumerator, nansum] using ih u

theorem nanProd_numerator_zero (w col : List RVal)
    (h : ∀ q : ℚ, some q ∈ w → q = 0) :
    nansum (List.zipWith nanProd w col) = 0 := by
  induction w generalizing col with
  | nil => cases col <;> rfl
  | cons a t ih =>
      have hmemt : ∀ q : ℚ, some q ∈ t → q = 0 :=
        fun q hq => h q (List.mem_cons_of_mem _ hq)
      cases col with
      | nil => rfl
      | cons b u =>
          cases a with
          | none => simpa [nanProd, nansum_cons_none] using ih u hmemt
          | some p =>
              have hp : p = 0 := h p (List.mem_cons_self _ _)
              cases b with
              | none => simpa [nanProd, nansum_cons_none] using ih u hmemt
              | some q =>
                  rw [List.zipWith_cons_cons]
                  show nansum (nanProd (some p) (some q) :: _) = 0
                  rw [show nanProd (some p) (some q) = some (p * q) from rfl,
                    nansum_cons_some, hp, zero_mul, zero_add]
                  exact ih u hmemt

/-!
Claim C2: population-weighted average NaN semantics.
-/

/-- C2 (counterexample): the claim states that rows with a NaN indicator
are excluded from both the numerator and the denominator.  With
populations `[100, 100]` and indicators `[0.2, NaN]` the code returns
`(100 * 0.2) / (100 + 100) = 0.1` — the NaN row is skipped in the
numerator but its population still counts in the denominator — while the
claimed both-sides exclusion would give `(100 * 0.2) / 100 = 0.2`. -/
theorem C2_counterexample :
    pop_weighted_average [some 100, some 100] [some (1/5), none] =
      DivResult.val (1/10) ∧
    jointNumerator [some 100, some 100] [some (1/5), none] /
      jointDenominator [some 100, some 100] [some (1/5), none] = 1/5 ∧
    (1/10 : ℚ) ≠ 1/5 := by
  refine ⟨?_, ?_, by norm_num⟩
  · norm_num [pop_weighted_average, nansum, nanProd, fdiv, List.filterMap_cons]
  · norm_num [jointNumerator, jointDenominator, List.filterMap_cons]

/-- C2 (amended): for every region group the code computes
`nansum(population * indicator) / nansum(population)`: the numerator
sums `population_i * indicator_i` over exactly the rows where neither
value is NaN, but the denominator sums every non-NaN population,
including populations of rows whose indicator is NaN.  On the concrete
scenario with populations `[100, 0, 50]` and indicators
`[0.2, 0.9, 0.4]` (no NaN anywhere) this agrees with the claimed value
`(100*0.2 + 0*0.9 + 50*0.4) / (100 + 0 + 50) = 4/15 ≈ 0.267`. -/
theorem C2_pop_weighted_average_semantics :
    (∀ w col : List RVal, nansum w ≠ 0 →
      pop_weighted_average w col =
        DivResult.val (jointNumerator w col / nansum w)) ∧
    pop_weighted_average [some 100, some 0, some 50]
      [some (1/5), some (9/10), some (2/5)] = DivResult.val (4/15) := by
  constructor
  · intro w col h
    unfold pop_weighted_average fdiv
    rw [nansum_zipWith_nanProd]
    simp [h]
  · norm_num [pop_weighted_average, nansum, nanProd, fdiv, List.filterMap_cons]

/-- Witness for C2: the amended semantics applied at the concrete
counterexample input. -/
theorem C2_pop_weighted_average_semantics_witness :
    nansum [some 100, some 100] ≠ 0 ∧
    pop_weighted_average [some 100, some 100] [some (1/5), none] =
      DivResult.val (jointNumerator [some 100, some 100] [some (1/5), none] /
        nansum [some 100, some 100]) :=
  ⟨by norm_num [nansum, List.filterMap_cons],
    C2_pop_weighted_average_semantics.1 _ _ (by norm_num [nansum, List.filterMap_cons])⟩

/-!
Claim C7: propagation of statistically undefined results.
-/

/-- C7 (counterexample): the claim states that a bootstrap weighted-mean
call whose input is empty after NaN removal produces NaN output rather
than raising.  The code instead raises: with empty inputs,
`np.random.randint(0, size=0)` raises `ValueError` on the first
resample, so `weight_mean` never returns a value (NaN or otherwise). -/
theorem C7_counterexample :
    weight_mean [] [] (fun _ _ => 0) 1000 =
      Except.error "ValueError: low >= high" ∧
    (weight_mean [] [] (fun _ _ => 0) 1000).isOk = false := by
  exact ⟨rfl, rfl⟩

/-- C7 (amended): a population-weighted average whose total population
is zero returns NaN (for non-negative populations the numerator is then
also zero, and `0.0 / 0.0` is NaN, not an exception and not zero); but a
bootstrap weighted-mean call whose input is empty after NaN removal
raises a `ValueError` (from `np.random.randint` over an empty range)
rather than producing NaN. -/
theorem C7_nan_propagation :
    (∀ w col : List RVal, (∀ q : ℚ, some q ∈ w → 0 ≤ q) → nansum w = 0 →
      pop_weighted_average w col = DivResult.nan) ∧
    (∀ x weights : List RVal, ∀ s : ℕ → ℕ → ℕ, ∀ N : ℕ,
      wmFilter x weights = [] → 0 < N →
      weight_mean x weights s N = Except.error "ValueError: low >= high") := by
  constructor
  · intro w col hn h0
    have hz := nanProd_numerator_zero w col (nansum_entries_eq_zero w hn h0)
    unfold pop_weighted_average fdiv
    rw [hz, h0]
    simp
  · intro x weights s N hf hN
    simp [weight_mean, hf, hN]

/-- Witness for C7: the zero-population branch at populations
`[0, NaN]`, and the empty-bootstrap branch at values `[NaN]`. -/
theorem C7_nan_propagation_witness :
    pop_weighted_average [some 0, none] [some 3, some 4] = DivResult.nan ∧
    weight_mean [none] [some 1] (fun _ _ => 0) 5 =
      Except.error "ValueError: low >= high" :=
  ⟨C7_nan_propagation.1 [some 0, none] [some 3, some 4]
      (by intro q hq; simp at hq; simp [hq]) (by simp [nansum]),
    C7_nan_propagation.2 [none] [some 1] (fun _ _ => 0) 5 rfl (by norm_num)⟩

/-!
Claim C6: structure of the bootstrap weighted mean.
-/

theorem wmFilter_clean (rows : List (ℚ × ℚ)) :
    wmFilter (rows.map (fun r => some r.1)) (rows.map (fun r => some r.2)) = rows := by
  induction rows with
  | nil => rfl
  | cons a t ih => simpa [wmFilter, List.filterMap_cons] using ih

theorem wmFilter_replicate (k : ℕ) (v wt : ℚ) :
    wmFilter (List.replicate k (some v)) (List.replicate k (some wt)) =
      List.replicate k (v, wt) := by
  induction k with
  | zero => rfl
  | succ n ih => simp [wmFilter, List.replicate_succ, List.filterMap_cons, ih]

theorem getD_replicate_of_lt {α : Type} (k i : ℕ) (a d : α) (h : i < k) :
    (List.replicate k a).getD i d = a := by
  induction k generalizing i with
  | zero => omega
  | succ n ih =>
      cases i with
      | zero => simp [List.replicate_succ]
      | succ j => simpa [List.replicate_succ] using ih j (by omega)

/-- C6 (confirmed): `weight_mean` first removes every row where either
the values or the weights column is NaN — its result coincides with the
result on the jointly NaN-filtered rows — and with `resamples = 1` on a
single (repeated) data point it returns that point as the mean with zero
standard deviation (the returned second component is the variance, and
`np.std = sqrt` of it, so zero variance is zero standard deviation).
Each resample has size equal to the number of remaining rows and applies
the same random indices jointly to values and weights, as recorded in
`wmDraw` and `wmResampleAvg`. -/
theorem C6_weight_mean_bootstrap :
    (∀ (x weights : List RVal) (s : ℕ → ℕ → ℕ) (N : ℕ),
      weight_mean x weights s N =
        weight_mean ((wmFilter x weights).map (fun r => some r.1))
          ((wmFilter x weights).map (fun r => some r.2)) s N) ∧
    (∀ (k : ℕ) (v wt : ℚ) (s : ℕ → ℕ → ℕ), k ≠ 0 → wt ≠ 0 →
      weight_mean (List.replicate k (some v)) (List.replicate k (some wt)) s 1 =
        Except.ok (DivResult.val v, DivResult.val 0)) := by
  constructor
  · intro x weights s N
    simp only [weight_mean, wmFilter_clean]
  · intro k v wt s hk hwt
    have hpos : 0 < k := Nat.pos_of_ne_zero hk
    have hrows : wmFilter (List.replicate k (some v)) (List.replicate k (some wt)) =
        List.replicate k (v, wt) := wmFilter_replicate k v wt
    have hdlen : (wmDraw k s 0).length = k := by simp [wmDraw]
    have hxs : (wmDraw k s 0).map
        (fun idx => ((List.replicate k ((v, wt) : ℚ × ℚ)).getD idx (0, 0)).1) =
        List.replicate k v := by
      rw [List.eq_replicate_iff]
      constructor
      · simpa using hdlen
      · intro b hb
        simp only [List.mem_map] at hb
        obtain ⟨i, hi, rfl⟩ := hb
        have hik : i < k := by
          simp only [wmDraw, List.mem_map, List.mem_range] at hi
          obtain ⟨j, _, rfl⟩ := hi
          exact Nat.mod_lt _ hpos
        rw [getD_replicate_of_lt k i _ _ hik]
    have hws : (wmDraw k s 0).map
        (fun idx => ((List.replicate k ((v, wt) : ℚ × ℚ)).getD idx (0, 0)).2) =
        List.replicate k wt := by
      rw [List.eq_replicate_iff]
      constructor
      · simpa using hdlen
      · intro b hb
        simp only [List.mem_map] at hb
        obtain ⟨i, hi, rfl⟩ := hb
        have hik : i < k := by
          simp only [wmDraw, List.mem_map, List.mem_range] at hi
          obtain ⟨j, _, rfl⟩ := hi
          exact Nat.mod_lt _ hpos
        rw [getD_replicate_of_lt k i _ _ hik]
    have hwsum : (List.replicate k wt).sum = (k : ℚ) * wt := by
      rw [List.sum_replicate, nsmul_eq_mul]
    have hksum : ((k : ℚ) * wt) ≠ 0 :=
      mul_ne_zero (Nat.cast_ne_zero.mpr hk) hwt
    have havg : wmResampleAvg (List.replicate k (v, wt)) s 0 = some v := by
      unfold wmResampleAvg
      simp only [List.length_replicate]
      rw [hxs, hws]
      unfold npWeightedAverage
      rw [hwsum, if_neg hksum]
      have hzip : List.zipWith (fun a b => a * b) (List.replicate k v)
          (List.replicate k wt) = List.replicate k (v * wt) := by
        induction k with
        | zero => rfl
        | succ n ih => simp [List.replicate_succ, ih]
      rw [hzip, List.sum_replicate, nsmul_eq_mul]
      congr 1
      field_simp
      ring
    simp only [weight_mean, hrows, List.length_replicate]
    rw [if_neg (by simp [hk])]
    rw [show List.range 1 = [0] from rfl]
    simp only [List.map_cons, List.map_nil, havg]
    simp [npMean, npVariance, fdiv]

/-- Witness for C6: the NaN-removal identity at a mixed concrete input,
and the single-point bootstrap at three copies of the pair `(7, 2)`. -/
theorem C6_weight_mean_bootstrap_witness :
    (weight_mean [some 1, none] [none, some 2] (fun _ _ => 0) 3 =
      weight_mean ((wmFilter [some 1, none] [none, some 2]).map (fun r => some r.1))
        ((wmFilter [some 1, none] [none, some 2]).map (fun r => some r.2))
        (fun _ _ => 0) 3) ∧
    weight_mean (List.replicate 3 (some 7)) (List.replicate 3 (some 2))
      (fun _ _ => 0) 1 = Except.ok (DivResult.val 7, DivResult.val 0) :=
  ⟨C6_weight_mean_bootstrap.1 [some 1, none] [none, some 2] (fun _ _ => 0) 3,
    C6_weight_mean_bootstrap.2 3 7 2 (fun _ _ => 0) (by norm_num) (by norm_num)⟩

/-!
Claim C1: buffered-mode contribution weights.
-/

/-- C1 (code evaluated at the failing input): one event with discharge
volume 10 whose buffer intersects all 4 candidate block groups has
`cso_duplication = 4`, yet the smoothed value the code assigns to a
block group is `np.average([10], weights=[4]) = 10` — the full volume is
assigned to each of the 4 block groups — not the `0.25 × 10 = 2.5`
demanded by the claimed `1/duplication` contribution, which both the
`smooth_discharge` docstring (weights chosen "to avoid double counting")
and the caller docstring (a "smoothed sum" of discharges) describe. -/
theorem C1_smooth_discharge_full_volume :
    cso_duplication 1 (fun _ _ => 0) 4 0 = 4 ∧
    smoothedVolume 1 (fun _ _ => 0) [⟨10, 5⟩] 4 0 = some 10 ∧
    ((10 : ℚ) / 4) ≠ 10 := by
  refine ⟨?_, ?_, by norm_num⟩
  · simp [cso_duplication, intersectingBGs, bufferIntersects, List.range_succ]
  · simp [smoothedVolume, smooth_discharge, npWeightedAverage, cso_duplication,
      intersectingBGs, bufferIntersects, List.range_succ]

/-!
Claim C9: behaviour on a non-positive buffer radius.
-/

/-- C9 (counterexample): the claim states that a buffer radius `≤ 0` in
buffered mode raises an exception before any computation.
`CSOAnalysis.__init__` performs no validation of `cbg_smooth_radius`:
constructing the analysis with radius `-1` succeeds and stores the
radius, raising nothing. -/
theorem C9_counterexample :
    CSOAnalysis_init (some (-1)) = Except.ok ⟨some (-1)⟩ ∧
    (CSOAnalysis_init (some (-1))).isOk = true :=
  ⟨rfl, rfl⟩

/-- C9 (amended): no exception is raised for a non-positive radius; the
value is stored as-is and the buffered attribution then proceeds with a
degenerate (empty) buffer, so no block group intersects any event
buffer and the spatial join produces no event–blockgroup pairs. -/
theorem C9_nonpositive_radius_behavior (r : ℚ) (hr : r ≤ 0) :
    CSOAnalysis_init (some r) = Except.ok ⟨some r⟩ ∧
    ∀ (dist : ℕ → ℕ → ℚ) (events : List BufEvent) (nBG : ℕ),
      (∀ e b : ℕ, bufferIntersects r (dist e b) = false) ∧
      bufferedPairs r dist events nBG = [] := by
  refine ⟨rfl, fun dist events nBG => ⟨?_, ?_⟩⟩
  · intro e b
    simp [bufferIntersects, hr]
  · have hI : ∀ e, intersectingBGs r dist nBG e = ([] : List ℕ) := by
      intro e
      simp [intersectingBGs, bufferIntersects, hr]
    simp [bufferedPairs, hI]

/-- Witness for C9: the amended behaviour at radius `-1` with one event
and four candidate block groups. -/
theorem C9_nonpositive_radius_behavior_witness :
    CSOAnalysis_init (some (-1)) = Except.ok ⟨some (-1)⟩ ∧
    bufferedPairs (-1) (fun _ _ => 0) [⟨10, 5⟩] 4 = [] :=
  ⟨(C9_nonpositive_radius_behavior (-1) (by norm_num)).1,
    ((C9_nonpositive_radius_behavior (-1) (by norm_num)).2 (fun _ _ => 0)
      [⟨10, 5⟩] 4).2⟩

/-!
Claim C3: unlabeled block groups and the sentinel bucket.
-/

/-- C3 (counterexample): the claim states that a block group whose
centroid no polygon contains gets a null label and is excluded from the
aggregation, never grouped under a sentinel bucket.  The code instead
labels it with the sentinel string and pandas groupby keeps that string
as an ordinary key: the sentinel appears as a region row of the
aggregate output carrying the unlabeled mass. -/
theorem C3_counterexample :
    (lookupGeoLabel "Town" [] "G1" (0, 0)).1 = "[UNKNOWN]" ∧
    groupTotals [(some "[UNKNOWN]", 5)] = [("[UNKNOWN]", 5)] := by
  constructor
  · rfl
  · simp [groupTotals]

/-- C3 (amended): a block group whose centroid no municipality
(respectively watershed) polygon contains keeps the sentinel label
`"[UNKNOWN]"` (not null); such rows are grouped under a `"[UNKNOWN]"`
bucket that appears as a region in the aggregate output; and each such
block group is surfaced for diagnostics by an info-level log line. -/
theorem C3_unknown_sentinel (geoType : String) (geoDf : List GeoFeature)
    (cbgId : String) (p : Pt)
    (h : geoDf.filter (fun g => g.containsP p) = []) :
    (lookupGeoLabel geoType geoDf cbgId p).1 = "[UNKNOWN]" ∧
    (lookupGeoLabel geoType geoDf cbgId p).2 =
      [(LogLevel.info,
        "No " ++ geoType ++ " found for Census Block Group #" ++ cbgId)] ∧
    ∀ (rows : List (Option String × ℚ)) (v : ℚ),
      (some "[UNKNOWN]", v) ∈ rows →
      "[UNKNOWN]" ∈ (groupTotals rows).map Prod.fst := by
  refine ⟨?_, ?_, ?_⟩
  · simp [lookupGeoLabel, h]
  · simp [lookupGeoLabel, h]
  · intro rows v hv
    simp only [groupTotals, List.map_map]
    have hmem : "[UNKNOWN]" ∈ rows.filterMap Prod.fst :=
      List.mem_filterMap.mpr ⟨(some "[UNKNOWN]", v), hv, rfl⟩
    simpa using List.mem_dedup.mpr hmem

/-- Witness for C3: the sentinel behaviour at an empty polygon family
and a one-row aggregation input carrying the sentinel label. -/
theorem C3_unknown_sentinel_witness :
    (lookupGeoLabel "Town" [] "G1" (0, 0)).1 = "[UNKNOWN]" ∧
    "[UNKNOWN]" ∈ (groupTotals [(some "[UNKNOWN]", (5 : ℚ))]).map Prod.fst :=
  ⟨(C3_unknown_sentinel "Town" [] "G1" (0, 0) rfl).1,
    (C3_unknown_sentinel "Town" [] "G1" (0, 0) rfl).2.2
      [(some "[UNKNOWN]", 5)] 5 (by simp)⟩

/-!
Claim C8: ambiguity resolution for multiply-contained centroids.
-/

/-- C8 (counterexample): the claim states that the ambiguity message is
logged as a warning identifying the candidate set.  At a point contained
by two towns the resolver does pick the first deterministically and does
not raise, but the log record it emits is at info level — not a warning
— and reports only the number of candidates. -/
theorem C8_counterexample :
    (lookupGeoLabel "Town"
      [⟨"TownA", fun _ => true⟩, ⟨"TownB", fun _ => true⟩] "G1" (0, 0)).1 =
      "TownA" ∧
    (lookupGeoLabel "Town"
      [⟨"TownA", fun _ => true⟩, ⟨"TownB", fun _ => true⟩] "G1" (0, 0)).2 =
      [(LogLevel.info,
        "N=2 Towns were found for Census Block Group #G1; will pick the first")] ∧
    ((lookupGeoLabel "Town"
      [⟨"TownA", fun _ => true⟩, ⟨"TownB", fun _ => true⟩] "G1" (0, 0)).2.countP
        (fun e => decide (e.1 = LogLevel.warning))) = 0 := by
  have hlog : (lookupGeoLabel "Town"
      [⟨"TownA", fun _ => true⟩, ⟨"TownB", fun _ => true⟩] "G1" (0, 0)).2 =
      [(LogLevel.info,
        "N=2 Towns were found for Census Block Group #G1; will pick the first")] := by
    simp only [lookupGeoLabel, List.filter]
    rfl
  refine ⟨rfl, hlog, ?_⟩
  rw [hlog]
  rfl

/-- C8 (amended): when a centroid is contained by more than one polygon
of the same family the resolver never raises: it deterministically
selects the first match in the iteration order of the polygon table and
emits a single info-level (not warning-level) log record identifying the
ambiguous block group and the number of candidates (not the candidate
set itself). -/
theorem C8_first_match_tie_break (geoType : String) (geoDf : List GeoFeature)
    (cbgId : String) (p : Pt) (g : GeoFeature) (rest : List GeoFeature)
    (h : geoDf.filter (fun f => f.containsP p) = g :: rest) (hr : rest ≠ []) :
    lookupGeoLabel geoType geoDf cbgId p =
      (g.key,
        [(LogLevel.info,
          "N=" ++ toString (rest.length + 1) ++ " " ++ geoType ++
            "s were found for Census Block Group #" ++ cbgId ++
            "; will pick the first")]) := by
  simp only [lookupGeoLabel, h]
  rw [if_neg (by simpa [List.length_eq_zero] using hr)]

/-- Witness for C8: the first-match tie-break at a point contained by
two towns. -/
theorem C8_first_match_tie_break_witness :
    lookupGeoLabel "Town"
      [⟨"TownA", fun _ => true⟩, ⟨"TownB", fun _ => true⟩] "G1" (0, 0) =
      ("TownA",
        [(LogLevel.info,
          "N=" ++ toString (([⟨"TownB", fun _ => true⟩] :
              List GeoFeature).length + 1) ++ " " ++ "Town" ++
            "s were found for Census Block Group #" ++ "G1" ++
            "; will pick the first")]) :=
  C8_first_match_tie_break "Town"
    [⟨"TownA", fun _ => true⟩, ⟨"TownB", fun _ => true⟩] "G1" (0, 0)
    ⟨"TownA", fun _ => true⟩ [⟨"TownB", fun _ => true⟩]
    (by simp [List.filter]) (by simp)

/-!
Claim C5: aggregation additivity.
-/

theorem sum_map_ite_single (ks : List String) (k0 : String) (v : ℚ)
    (hnd : ks.Nodup) (hk : k0 ∈ ks) :
    (ks.map (fun k => if k0 = k then v else 0)).sum = v := by
  induction ks with
  | nil => cases hk
  | cons a t ih =>
      rcases List.mem_cons.mp hk with h | h
      · subst h
        have hnotin : k0 ∉ t := (List.nodup_cons.mp hnd).1
        have hrest : (t.map (fun k => if k0 = k then v else 0)).sum = 0 := by
          apply List.sum_eq_zero
          intro x hx
          simp only [List.mem_map] at hx
          obtain ⟨b, hb, rfl⟩ := hx
          have : k0 ≠ b := fun hkb => hnotin (hkb ▸ hb)
          simp [this]
        simp [hrest]
      · have ha : k0 ≠ a := by
          intro hka
          subst hka
          exact (List.nodup_cons.mp hnd).1 h
        simp only [List.map_cons, List.sum_cons, if_neg ha, zero_add]
        exact ih (List.nodup_cons.mp hnd).2 h

theorem groupTotals_sum_aux (ks : List String) (hnd : ks.Nodup)
    (rows : List (Option String × ℚ))
    (hcov : ∀ r ∈ rows, ∀ k : String, r.1 = some k → k ∈ ks) :
    (ks.map (fun k =>
      ((rows.filter (fun r => r.1 = some k)).map Prod.snd).sum)).sum =
      attributedTotal rows := by
  induction rows with
  | nil =>
      simp only [List.filter_nil, List.map_nil, List.sum_nil, attributedTotal]
      apply List.sum_eq_zero
      intro x hx
      simp only [List.mem_map] at hx
      obtain ⟨b, _, rfl⟩ := hx
      rfl
  | cons r t ih =>
      have hcovt : ∀ a ∈ t, ∀ k : String, a.1 = some k → k ∈ ks :=
        fun a ha k hk => hcov a (List.mem_cons_of_mem _ ha) k hk
      have hsplit : ∀ k : String,
          (((r :: t).filter (fun x => x.1 = some k)).map Prod.snd).sum =
            (if r.1 = some k then r.2 else 0) +
              ((t.filter (fun x => x.1 = some k)).map Prod.snd).sum := by
        intro k
        by_cases hcase : r.1 = some k
        · simp [List.filter_cons, hcase]
        · simp [List.filter_cons, hcase]
      have hmap : (ks.map (fun k =>
          (((r :: t).filter (fun x => x.1 = some k)).map Prod.snd).sum)).sum =
          (ks.map (fun k => if r.1 = some k then r.2 else 0)).sum +
            (ks.map (fun k =>
              ((t.filter (fun x => x.1 = some k)).map Prod.snd).sum)).sum := by
        rw [← List.sum_map_add]
        exact congrArg List.sum (List.map_congr_left (fun k _ => hsplit k))
      rw [hmap, ih hcovt]
      cases hr : r.1 with
      | none =>
          have hz : (ks.map (fun k =>
              if (none : Option String) = some k then r.2 else 0)).sum = 0 := by
            apply List.sum_eq_zero
            intro x hx
            simp only [List.mem_map] at hx
            obtain ⟨b, _, rfl⟩ := hx
            simp
          rw [hz, zero_add]
          simp [attributedTotal, List.filter_cons, hr]
      | some k0 =>
          have hin : k0 ∈ ks := hcov r (List.mem_cons_self _ _) k0 hr
          have hone : (ks.map (fun k =>
              if (some k0 : Option String) = some k then r.2 else 0)).sum = r.2 := by
            have hbase := sum_map_ite_single ks k0 r.2 hnd hin
            calc (ks.map (fun k =>
                if (some k0 : Option String) = some k then r.2 else 0)).sum
                = (ks.map (fun k => if k0 = k then r.2 else 0)).sum := by
                  exact congrArg List.sum (List.map_congr_left (fun k _ => by
                    simp only [Option.some.injEq]))
              _ = r.2 := hbase
          rw [hone]
          simp [attributedTotal, List.filter_cons, hr]

/-- C5 (confirmed): for every family, summing the aggregated column over
all regions of the aggregate table equals the sum of `weight × value`
over all attributed (event, region) pairs with weight one, as in exact
mode — pandas groupby partitions the attributed rows (those with a
non-null region label) by region and sums within each part.  On the
concrete scenario of a single event with volume 10 and count 5 attributed
only to region A, the aggregate table is exactly the one row
`("A", 10)` (respectively `("A", 5)`), so no other region receives any
contribution from the event. -/
theorem C5_aggregation_additivity :
    (∀ rows : List (Option String × ℚ),
      ((groupTotals rows).map Prod.snd).sum = attributedTotal rows) ∧
    groupTotals [(some "A", 10)] = [("A", 10)] ∧
    groupTotals [(some "A", 5)] = [("A", 5)] := by
  refine ⟨?_, by simp [groupTotals], by simp [groupTotals]⟩
  intro rows
  have hmm : ((groupTotals rows).map Prod.snd).sum =
      (((rows.filterMap Prod.fst).dedup).map (fun k =>
        ((rows.filter (fun r => r.1 = some k)).map Prod.snd).sum)).sum := by
    simp only [groupTotals, List.map_map]
    rfl
  rw [hmm]
  apply groupTotals_sum_aux
  · exact List.nodup_dedup _
  · intro r hr k hk
    exact List.mem_dedup.mpr (List.mem_filterMap.mpr ⟨r, hr, by rw [hk]⟩)

/-!
Claim C4: exact-mode attribution.
-/

theorem zip_map_self {α β : Type} (l : List α) (g : α → β) :
    l.zip (l.map g) = l.map (fun a => (a, g a)) := by
  induction l with
  | nil => rfl
  | cons a t ih => simp [ih]

theorem flatMap_singleton_eq_map {α β : Type} (l : List α) (f : α → List β) (b : β)
    (h : ∀ a ∈ l, (f a).length = 1) :
    l.flatMap f = l.map (fun a => (f a).headD b) := by
  induction l with
  | nil => rfl
  | cons a t ih =>
      obtain ⟨x, hx⟩ := List.length_eq_one.mp (h a (List.mem_cons_self _ _))
      rw [List.flatMap_cons, hx,
        ih (fun a2 ha2 => h a2 (List.mem_cons_of_mem _ ha2)), List.map_cons, hx]
      rfl

/-- C4 (confirmed): in exact mode every event with valid coordinates is
attributed to at most one block group.  The code performs a single
`sjoin_nearest`; since a containing polygon is at distance zero and
distances are non-negative, the nearest match is a containing polygon
whenever one exists, and otherwise it is the nearest candidate — which
is exactly the claimed contains-first-with-nearest-fallback behaviour.
Every event receives an attribution (`pr.2.isSome`), so the attributed
events are all the valid-coordinate events and the unattributable
complement — which exact mode logs as nothing — is empty.  The
hypotheses say that the geometry is non-degenerate: distance zero
coincides with containment, distances are non-negative, and each event
has a unique nearest candidate (with ties, geopandas would return
duplicate rows and the column write-back would raise instead). -/
theorem C4_exact_mode_attribution (rs : List Region) (events : List Pt)
    (hcoh : ∀ r ∈ rs, ∀ p : Pt, (r.containsP p = true ↔ r.distP p = 0))
    (hnn : ∀ r ∈ rs, ∀ p : Pt, 0 ≤ r.distP p)
    (huniq : ∀ p ∈ events, (nearestSet rs p).length = 1) :
    ∃ out : List (Pt × Option String),
      assignExact rs events = Except.ok out ∧
      out.length = events.length ∧
      (∀ pr ∈ out, pr.2.isSome = true) ∧
      (∀ pr ∈ out, ∃ r ∈ rs, pr.2 = some r.geoid ∧
        ((∃ r2 ∈ rs, r2.containsP pr.1 = true) → r.containsP pr.1 = true)) := by
  have hassign : ∀ p ∈ events, ∃ r0 : Region, r0 ∈ rs ∧ nearestSet rs p = [r0] ∧
      (mergeRows rs p).headD none = some r0.geoid := by
    intro p hp
    obtain ⟨r0, hr0⟩ := List.length_eq_one.mp (huniq p hp)
    have hr0mem : r0 ∈ rs := by
      have hmem : r0 ∈ nearestSet rs p := by
        rw [hr0]
        exact List.mem_singleton_self _
      exact List.mem_of_mem_filter hmem
    exact ⟨r0, hr0mem, hr0, by simp [mergeRows, hr0]⟩
  have hmr : ∀ p ∈ events, (mergeRows rs p).length = 1 := by
    intro p hp
    obtain ⟨r0, _, hr0, _⟩ := hassign p hp
    simp [mergeRows, hr0]
  have hflat : events.flatMap (mergeRows rs) =
      events.map (fun p => (mergeRows rs p).headD none) :=
    flatMap_singleton_eq_map events (mergeRows rs) none hmr
  have hlen : (events.flatMap (mergeRows rs)).length = events.length := by
    rw [hflat, List.length_map]
  have hzip : events.zip (events.map (fun p => (mergeRows rs p).headD none)) =
      events.map (fun p => (p, (mergeRows rs p).headD none)) :=
    zip_map_self events (fun p => (mergeRows rs p).headD none)
  refine ⟨events.zip (events.flatMap (mergeRows rs)), ?_, ?_, ?_, ?_⟩
  · simp [assignExact, hlen]
  · rw [List.length_zip, hlen, min_self]
  · intro pr hpr
    rw [hflat, hzip] at hpr
    simp only [List.mem_map] at hpr
    obtain ⟨p, hp, rfl⟩ := hpr
    obtain ⟨r0, _, _, hhead⟩ := hassign p hp
    rw [List.headD_eq_head?] at hhead
    simp [hhead]
  · intro pr hpr
    rw [hflat, hzip] at hpr
    simp only [List.mem_map] at hpr
    obtain ⟨p, hp, rfl⟩ := hpr
    obtain ⟨r0, hr0mem, hr0, hhead⟩ := hassign p hp
    refine ⟨r0, hr0mem, hhead, ?_⟩
    rintro ⟨r2, hr2mem, hr2c⟩
    have hr2d : r2.distP p = 0 := (hcoh r2 hr2mem p).mp hr2c
    have hr0near : r0 ∈ nearestSet rs p := by
      rw [hr0]
      exact List.mem_singleton_self _
    have hall : ∀ r3 ∈ rs, r0.distP p ≤ r3.distP p := by
      have hcond := List.of_mem_filter hr0near
      rw [List.all_eq_true] at hcond
      intro r3 hr3
      exact of_decide_eq_true (hcond r3 hr3)
    have hle : r0.distP p ≤ 0 := hr2d ▸ hall r2 hr2mem
    have hge : 0 ≤ r0.distP p := hnn r0 hr0mem p
    exact (hcoh r0 hr0mem p).mpr (le_antisymm hle hge)

/-- Witness for C4: two candidate regions, one containing the event
point at distance zero and one at distance one. -/
theorem C4_exact_mode_attribution_witness :
    ∃ out : List (Pt × Option String),
      assignExact [⟨"A", fun _ => true, fun _ => 0⟩, ⟨"B", fun _ => false, fun _ => 1⟩]
        [((0 : ℚ), (0 : ℚ))] = Except.ok out ∧
      out.length = [((0 : ℚ), (0 : ℚ))].length ∧
      (∀ pr ∈ out, pr.2.isSome = true) ∧
      (∀ pr ∈ out, ∃ r ∈ ([⟨"A", fun _ => true, fun _ => 0⟩,
          ⟨"B", fun _ => false, fun _ => 1⟩] : List Region),
        pr.2 = some r.geoid ∧
        ((∃ r2 ∈ ([⟨"A", fun _ => true, fun _ => 0⟩,
            ⟨"B", fun _ => false, fun _ => 1⟩] : List Region),
          r2.containsP pr.1 = true) → r.containsP pr.1 = true)) := by
  apply C4_exact_mode_attribution
  · intro r hr p
    rcases List.mem_cons.mp hr with h | h
    · subst h; simp
    · rcases List.mem_cons.mp h with h2 | h2
      · subst h2
        simp only [iff_false, Bool.false_eq_true, false_iff]
        norm_num
      · cases h2
  · intro r hr p
    rcases List.mem_cons.mp hr with h | h
    · subst h; norm_num
    · rcases List.mem_cons.mp h with h2 | h2
      · subst h2; norm_num
      · cases h2
  · intro p hp
    rcases List.mem_cons.mp hp with h | h
    · subst h
      norm_num [nearestSet, List.filter, List.all]
    · cases h

/-!
Claim C10: the attribution functions never mutate their input frames.
-/

theorem readF_append (st : Store) (fs : List DFrame) (r : ℕ) (h : r < st.length) :
    readF (st ++ fs) r = readF st r := by
  unfold readF
  exact List.getD_append _ _ _ _ h

theorem readF_writeF_ne (st : Store) (t : ℕ) (f : DFrame) (r : ℕ) (h : r ≠ t) :
    readF (writeF st t f) r = readF st r := by
  unfold readF writeF
  rw [List.getD_eq_getD_get?, List.getD_eq_getD_get?]
  congr 1
  rw [List.get?_eq_getElem?, List.get?_eq_getElem?,
    List.getElem?_set_ne (fun he => h he.symm)]

theorem foldl_preserve {β : Type} (cols : List β) (step : Store → β → Store)
    (acc : Store) (r : ℕ) (h : ∀ a c, readF (step a c) r = readF a r) :
    readF (cols.foldl step acc) r = readF acc r := by
  induction cols generalizing acc with
  | nil => rfl
  | cons c cs ih => rw [List.foldl_cons, ih, h]

theorem foldl_length {β : Type} (cols : List β) (step : Store → β → Store)
    (acc : Store) (h : ∀ a c, (step a c).length = a.length) :
    (cols.foldl step acc).length = acc.length := by
  induction cols generalizing acc with
  | nil => rfl
  | cons c cs ih => rw [List.foldl_cons, ih, h]

/-- C10 (confirmed): neither
`_assign_cso_data_to_census_blocks_with_geopandas` (in either mode) nor
`assign_ej_data_to_geo_bins_with_geopandas` mutates any pre-existing
frame of the store: every frame reachable before the call — in
particular the input event table, the region polygon tables and the
demographic table — is unchanged afterwards, because the functions copy
or derive fresh frames and their column assignments target only those
fresh frames. -/
theorem C10_no_input_mutation :
    (∀ (st : Store) (dataCso dataEjs geoBg : ℕ) (useRadius : Option ℚ)
      (cols : List String) (ops : CsoGeoOps) (r : ℕ), r < st.length →
      readF (assign_cso_to_blocks st dataCso dataEjs geoBg useRadius cols ops).1 r =
        readF st r) ∧
    (∀ (st : Store) (dataEjs geoTowns geoWatersheds geoBg : ℕ) (ops : EjGeoOps)
      (r : ℕ), r < st.length →
      readF (assign_ej_to_geo_bins st dataEjs geoTowns geoWatersheds geoBg ops).1 r =
        readF st r) := by
  constructor
  · intro st dataCso dataEjs geoBg useRadius cols ops r hr
    cases useRadius with
    | none =>
        simp only [assign_cso_to_blocks, alloc]
        rw [readF_writeF_ne _ _ _ _ (by (try simp [writeF]); omega)]
        rw [readF_append _ _ _ (by (try simp [writeF]); omega)]
        rw [readF_append _ _ _ (by (try simp [writeF]); omega)]
        rw [readF_append _ _ _ (by (try simp [writeF]); omega)]
        rw [readF_append _ _ _ (by omega)]
    | some rad =>
        simp only [assign_cso_to_blocks, alloc]
        rw [readF_writeF_ne _ _ _ _ (by (try simp [writeF]); omega)]
        rw [foldl_preserve _ _ _ _
          (fun a c => readF_writeF_ne a _ _ r (by (try simp [writeF]); omega))]
        rw [readF_append _ _ _ (by (try simp [writeF]); omega)]
        rw [readF_writeF_ne _ _ _ _ (by (try simp [writeF]); omega)]
        rw [readF_append _ _ _ (by (try simp [writeF]); omega)]
        rw [readF_append _ _ _ (by (try simp [writeF]); omega)]
        rw [readF_append _ _ _ (by (try simp [writeF]); omega)]
        rw [readF_append _ _ _ (by (try simp [writeF]); omega)]
        rw [readF_append _ _ _ (by omega)]
  · intro st dataEjs geoTowns geoWatersheds geoBg ops r hr
    simp only [assign_ej_to_geo_bins, alloc]
    rw [readF_append _ _ _ (by (try simp [writeF]); omega)]
    rw [readF_writeF_ne _ _ _ _ (by (try simp [writeF]); omega)]
    rw [readF_writeF_ne _ _ _ _ (by (try simp [writeF]); omega)]
    rw [readF_append _ _ _ (by (try simp [writeF]); omega)]
    rw [readF_append _ _ _ (by (try simp [writeF]); omega)]
    rw [readF_append _ _ _ (by (try simp [writeF]); omega)]
    rw [readF_append _ _ _ (by (try simp [writeF]); omega)]
    rw [readF_append _ _ _ (by (try simp [writeF]); omega)]
    rw [readF_append _ _ _ (by omega)]

/-- Witness for C10: both attribution functions run on a two-frame store
with identity oracles, reading back the first frame unchanged. -/
theorem C10_no_input_mutation_witness :
    readF (assign_cso_to_blocks [⟨[("v", [some 1])]⟩, ⟨[]⟩] 0 1 1 none ["c"]
      ⟨id, id, fun f _ => f, fun _ f => f, fun f _ => f, fun f _ => f,
        fun _ => [], id, fun _ _ _ => [], fun _ => [], fun _ => []⟩).1 0 =
      readF [⟨[("v", [some 1])]⟩, ⟨[]⟩] 0 ∧
    readF (assign_ej_to_geo_bins [⟨[("v", [some 1])]⟩, ⟨[]⟩] 0 1 1 1
      ⟨id, fun f _ => f, id, id, fun _ _ _ _ => [], id⟩).1 0 =
      readF [⟨[("v", [some 1])]⟩, ⟨[]⟩] 0 :=
  ⟨C10_no_input_mutation.1 [⟨[("v", [some 1])]⟩, ⟨[]⟩] 0 1 1 none ["c"] _ 0
      (by norm_num),
    C10_no_input_mutation.2 [⟨[("v", [some 1])]⟩, ⟨[]⟩] 0 1 1 1 _ 0 (by norm_num)⟩

end NECIRCSO
